import Mathlib

/-!
Shallow embedding of `backend/musicSearch/music_search.py` (Juke_Jam):
tokenization, inverted-index candidate retrieval, TF-IDF ranking,
feature-vector reranking, explanation generation and time-context
profiling, together with theorems settling the specification's claims.

Modelling conventions:
* Python floats are modelled as real numbers (`ℝ`) on the code paths that
  use `math.log` / `math.sqrt`, and as rationals (`ℚ`) on the purely
  arithmetical paths, so that concrete instances can be computed.
* A Python dict read with `d.get(k, default)` is modelled either as a
  total function (returning the default outside its support) or as a
  record of `Option` fields read with `Option.getD`.
* Python string/list truthiness (`if s:`) is modelled by comparison with
  `""` / `[]`; a `None`-or-string optional argument is modelled as a
  `String` with `""` standing for both `None` and the empty string, which
  the code never distinguishes.
-/

namespace JukeJam

/-- Python's `str.lower()` (ASCII case mapping), defined over the
character list so that concrete instances reduce. -/
def lowerStr (s : String) : String := String.mk (s.data.map Char.toLower)

/-- A character matched by Python's `\w` (`TOKEN_RE`): letter, digit or
underscore. -/
def isWordChar (c : Char) : Bool := c.isAlphanum || c = '_'

/-- Maximal runs of word characters in a character list, accumulator
`acc` holding the current run reversed: this is `TOKEN_RE.findall`. -/
def wordRunsAux : List Char → List Char → List String
  | [], acc => if acc.isEmpty then [] else [String.mk acc.reverse]
  | c :: cs, acc =>
    if isWordChar c then wordRunsAux cs (c :: acc)
    else if acc.isEmpty then wordRunsAux cs []
    else String.mk acc.reverse :: wordRunsAux cs []

/-- `tokenize`: lowercase, then split into alphanumeric tokens.
`tokenize(None)` and `tokenize("")` both give `[]`, matching the
`if not text` guard. -/
def tokenize (text : String) : List String :=
  wordRunsAux (lowerStr text).toList []

/-- The index bundle loaded by `load_indexes`: five token→postings maps.
Each inner dict is read with `.get(tok, [])`, so it is modelled as a
total function defaulting to `[]`. -/
structure Indexes where
  genre : String → List ℕ
  mood : String → List ℕ
  energy : String → List ℕ
  title : String → List ℕ
  artist : String → List ℕ

/-- `set.intersection(*sets)` over a sets list; the code only reaches it
with a non-empty list, and `[]` is mapped to `∅` (the code's early
return). -/
def interList : List (Finset ℕ) → Finset ℕ
  | [] => ∅
  | s :: ss => ss.foldl (· ∩ ·) s

/-- The title part of the text-search precedence step of
`retrieve_candidates`: `None` if the title query is absent or has no
tokens, otherwise the intersection of the tokens' title postings. -/
def textHitsTitle (idx : Indexes) (title_query : String) : Option (Finset ℕ) :=
  if title_query ≠ "" then
    let words := tokenize title_query
    if words ≠ [] then some (interList (words.map fun w => (idx.title w).toFinset))
    else none
  else none

/-- `retrieve_candidates`: intersection across all active filter
categories; title/artist text hits are combined first, the genre filter
is a union over the requested genres, and with no active category the
result is empty. -/
def retrieve_candidates (idx : Indexes) (genres : List String)
    (mood energy title_query artist_query : String) : Finset ℕ :=
  let text_hits : Option (Finset ℕ) := textHitsTitle idx title_query
  let text_hits : Option (Finset ℕ) :=
    if artist_query ≠ "" then
      let words := tokenize artist_query
      if words ≠ [] then
        let artist_hits := interList (words.map fun w => (idx.artist w).toFinset)
        some (match text_hits with
              | none => artist_hits
              | some h => h ∩ artist_hits)
      else text_hits
    else text_hits
  let sets : List (Finset ℕ) :=
    (match text_hits with | none => [] | some h => [h]) ++
    (if genres ≠ [] then
        [genres.foldl (fun acc g => if g ≠ "" then acc ∪ (idx.genre (lowerStr g)).toFinset else acc) ∅]
      else []) ++
    (if mood ≠ "" then [(idx.mood (lowerStr mood)).toFinset] else []) ++
    (if energy ≠ "" then [(idx.energy (lowerStr energy)).toFinset] else [])
  if sets = [] then ∅ else interList sets

/-- Hit set of one text category as §4.1 describes it: conjunctive
matching over the query's tokens. -/
def textCategoryHits (index : String → List ℕ) (query : String) : Finset ℕ :=
  interList ((tokenize query).map fun w => (index w).toFinset)

/-- Hit set of the genre category as §4.1 describes it: union of the
postings of every (non-empty) requested genre. -/
def genreCategoryHits (idx : Indexes) (genres : List String) : Finset ℕ :=
  ((genres.filter fun g => g ≠ "").map fun g => (idx.genre (lowerStr g)).toFinset).foldr (· ∪ ·) ∅

/-- The specification's reading of candidate retrieval (claim C3): the
intersection, over every active filter category, of that category's hit
set; a text category is active when its query has at least one token. -/
def candidatesSpec (idx : Indexes) (genres : List String)
    (mood energy title_query artist_query : String) : Finset ℕ :=
  let active : List (Finset ℕ) :=
    (if tokenize title_query ≠ [] then [textCategoryHits idx.title title_query] else []) ++
    (if tokenize artist_query ≠ [] then [textCategoryHits idx.artist artist_query] else []) ++
    (if genres ≠ [] then [genreCategoryHits idx genres] else []) ++
    (if mood ≠ "" then [(idx.mood (lowerStr mood)).toFinset] else []) ++
    (if energy ≠ "" then [(idx.energy (lowerStr energy)).toFinset] else [])
  interList active

/-- `unique_doc_count` / `doc_freq_for_token`: document frequency of a
token is the size of the union of its title and artist postings. -/
def doc_freq_for_token (token : String) (title_index artist_index : String → List ℕ) : ℕ :=
  ((title_index token).toFinset ∪ (artist_index token).toFinset).card

/-- The smoothed IDF formula of `idf` as a function of the document
count `N` and the document frequency `df`: `ln((N+1)/(df+1)) + 1`. -/
noncomputable def idfVal (N df : ℕ) : ℝ :=
  Real.log ((N + 1) / (df + 1)) + 1

/-- `idf`: smoothed IDF of a token over the title+artist indexes. -/
noncomputable def idf (token : String) (title_index artist_index : String → List ℕ)
    (N : ℕ) : ℝ :=
  idfVal N (doc_freq_for_token token title_index artist_index)

/-- The `adjacent` dict of `_mood_match_score`, keyed by the candidate
song's mood. -/
def adjacentMoods (m : String) : List String :=
  if m = "happy" then ["hype", "chill"]
  else if m = "hype" then ["happy"]
  else if m = "chill" then ["happy", "sad", "focus"]
  else if m = "sad" then ["chill", "focus"]
  else if m = "focus" then ["chill", "sad"]
  else []

/-- `_mood_match_score`: 1.0 on exact match, 0.3 when the target mood is
in the adjacency set looked up by the candidate song's mood, else 0;
0 when either mood string is empty (Python falsiness). -/
def _mood_match_score (song_mood target_mood : String) : ℚ :=
  if song_mood = "" ∨ target_mood = "" then 0
  else if song_mood = target_mood then 1
  else if target_mood ∈ adjacentMoods song_mood then 0.3
  else 0

/-- `_genre_match_score`: 1.0 when the song genre is among the user's
top genres, case-insensitively; 0 when either input is empty. -/
def _genre_match_score (song_genre : String) (user_genres : List String) : ℚ :=
  if song_genre = "" ∨ user_genres = [] then 0
  else if lowerStr song_genre ∈ user_genres.map lowerStr then 1
  else 0

/-- Record exposing the five audio attributes (`AUDIO_FEATURES` order:
energy, valence, danceability, acousticness, tempo), each possibly
missing. -/
structure FeatRecord where
  energy : Option ℝ
  valence : Option ℝ
  danceability : Option ℝ
  acousticness : Option ℝ
  tempo : Option ℝ

/-- `_normalize_tempo`: linear rescale of BPM from [`_TEMPO_MIN`,
`_TEMPO_MAX`] = [40, 220] into [0,1], clamped. -/
noncomputable def _normalize_tempo (tempo : ℝ) : ℝ :=
  max 0 (min 1 ((tempo - 40) / (220 - 40)))

/-- `_build_feature_vector`: the five audio attributes in
`AUDIO_FEATURES` order, each defaulting to 0.5 when missing, tempo
normalized unless suppressed. -/
noncomputable def _build_feature_vector (record : FeatRecord) (normalize_tempo : Bool) :
    List ℝ :=
  [record.energy.getD 0.5,
   record.valence.getD 0.5,
   record.danceability.getD 0.5,
   record.acousticness.getD 0.5,
   if normalize_tempo then _normalize_tempo (record.tempo.getD 0.5)
   else record.tempo.getD 0.5]

/-- The dot product `sum(x * y for x, y in zip(a, b))`. -/
noncomputable def dotList (a b : List ℝ) : ℝ :=
  ((a.zip b).map fun p => p.1 * p.2).sum

/-- The magnitude `sqrt(sum(x * x for x in a))`. -/
noncomputable def magnitudeOf (a : List ℝ) : ℝ :=
  Real.sqrt ((a.map fun x => x * x).sum)

/-- `cosine_similarity`: 0 when either magnitude is zero, otherwise the
dot product over the product of magnitudes. -/
noncomputable def cosine_similarity (a b : List ℝ) : ℝ :=
  if magnitudeOf a = 0 ∨ magnitudeOf b = 0 then 0
  else dotList a b / (magnitudeOf a * magnitudeOf b)

/-- The user profile fields read by the reranker:
`avg_energy_preference` via `.get(_, 0.5)` and `top_genres` via
`.get(_, [])` (the missing-key default is the empty list, so the field
is modelled as a plain list). -/
structure UserProfile where
  avg_energy_preference : Option ℝ
  top_genres : List String

/-- The `activity_energy` dict of `build_user_audio_vector`; `none` for
activities outside the table. -/
noncomputable def activityEnergy (activity : String) : Option ℝ :=
  if activity = "workout" then some 0.85
  else if activity = "study" then some 0.25
  else if activity = "relax" then some 0.20
  else if activity = "commute" then some 0.55
  else none

/-- One row of the `mood_profiles` table. -/
structure MoodProfile where
  valence : ℝ
  danceability : ℝ
  acousticness : ℝ
  tempo : ℝ

/-- The `mood_profiles` dict with its neutral fallback row. -/
noncomputable def moodProfiles (mood : String) : MoodProfile :=
  if mood = "happy" then ⟨0.80, 0.70, 0.30, 120⟩
  else if mood = "sad" then ⟨0.20, 0.30, 0.60, 85⟩
  else if mood = "chill" then ⟨0.45, 0.40, 0.55, 95⟩
  else if mood = "hype" then ⟨0.75, 0.85, 0.15, 140⟩
  else if mood = "focus" then ⟨0.40, 0.35, 0.50, 100⟩
  else ⟨0.5, 0.5, 0.5, 110⟩

/-- `build_user_audio_vector`: baseline energy from the profile,
overridden by the activity table when the activity is present and known,
mood-profile values for the other attributes, fed through
`_build_feature_vector`. -/
noncomputable def build_user_audio_vector (user_profile : UserProfile) (mood : String)
    (activity : Option String) : List ℝ :=
  let base_energy := user_profile.avg_energy_preference.getD 0.5
  let base_energy :=
    match activity with
    | some a => (activityEnergy a).getD base_energy
    | none => base_energy
  let mp := moodProfiles mood
  _build_feature_vector
    ⟨some base_energy, some mp.valence, some mp.danceability, some mp.acousticness,
     some mp.tempo⟩ true

/-- A catalog row (`track_lookup[tid]`), with every field optional as in
the underlying dict; readers supply their own defaults. -/
structure Song where
  title : Option String
  artist_name : Option String
  energy : Option ℝ
  valence : Option ℝ
  danceability : Option ℝ
  acousticness : Option ℝ
  tempo : Option ℝ
  mood_bucket : Option String
  genre : Option String
  popularity : Option ℝ

/-- The five audio attributes of a song row, as `_build_feature_vector`
reads them. -/
def Song.feats (s : Song) : FeatRecord :=
  ⟨s.energy, s.valence, s.danceability, s.acousticness, s.tempo⟩

/-- `track_lookup` (dict track_id → row), modelled as an association
list; `.get(tid)` is the first matching entry. -/
def lookupTrack (track_lookup : List (ℕ × Song)) (tid : ℕ) : Option Song :=
  (track_lookup.find? fun p => p.1 == tid).map fun p => p.2

/-- Python's `round(x, 4)`, idealized over ℝ (round-half-to-even on
floats is modelled as rounding to the nearest multiple of 1/10000). -/
noncomputable def round4 (x : ℝ) : ℝ :=
  (round (x * 10000) : ℤ) / 10000

/-- The score breakdown attached to each reranked result. -/
structure Breakdown where
  audio_similarity : ℝ
  mood_match : ℝ
  genre_match : ℝ
  popularity : ℝ
  final_score : ℝ

/-- `score_candidate_song`: the blended feature score
`0.45·sim + 0.25·mood + 0.15·genre + 0.15·popularity/100` and its
4-decimal breakdown.  Missing popularity defaults to 50 here. -/
noncomputable def score_candidate_song (song : Song) (user_vector : List ℝ)
    (target_mood : String) (user_genres : List String) : ℝ × Breakdown :=
  let song_vector := _build_feature_vector song.feats true
  let sim := cosine_similarity user_vector song_vector
  let mood_sc : ℝ := (_mood_match_score (song.mood_bucket.getD "") target_mood : ℚ)
  let genre_sc : ℝ := (_genre_match_score (song.genre.getD "") user_genres : ℚ)
  let pop_sc : ℝ := song.popularity.getD 50 / 100
  let final := 0.45 * sim + 0.25 * mood_sc + 0.15 * genre_sc + 0.15 * pop_sc
  (final, ⟨round4 sim, round4 mood_sc, round4 genre_sc, round4 pop_sc, round4 final⟩)

/-- The sort key order of `scored.sort(key=lambda x: (-x[1], x[0]))`:
ascending lexicographic on (negated score, track id), shared by both
rankers through the projections `score` and `tid`. -/
abbrev rankKeyLE {α : Type} (score : α → ℝ) (tid : α → ℕ) (x y : α) : Prop :=
  score y < score x ∨ (score x = score y ∧ tid x ≤ tid y)

/-- The shared sort of both rankers: descending score, ties by ascending
track id. -/
noncomputable def sortByRankKey {α : Type} (score : α → ℝ) (tid : α → ℕ)
    (l : List α) : List α :=
  l.mergeSort fun x y => decide (rankKeyLE score tid x y)

/-- The ordering that claim C4 asserts of adjacent output entries of
either ranker: strictly decreasing score, ties broken by strictly
increasing track id. -/
abbrev strictlyRanked {α : Type} (score : α → ℝ) (tid : α → ℕ) (l : List α) : Prop :=
  l.Chain' fun x y => score y < score x ∨ (score x = score y ∧ tid x < tid y)

/-- `compute_tf_for_doc` for one field, as a function instead of a dict:
log-normalized term frequency of each query term. -/
noncomputable def compute_tf_for_doc (tokens : List String) : String → ℝ :=
  fun t =>
    let f := tokens.count t
    if f = 0 then 0 else 1 + Real.log f

/-- The two entries of the `field_weights` dict (default
`{"title": 2.0, "artist": 1.0}`). -/
structure FieldWeights where
  title : ℝ
  artist : ℝ

/-- The default field weights of `score_doc_tfidf_for_fields`. -/
noncomputable def defaultFieldWeights : FieldWeights := ⟨2.0, 1.0⟩

/-- `score_doc_tfidf_for_fields` (with the default title/artist column
names): sum over query terms of weighted field TF times IDF. -/
noncomputable def score_doc_tfidf_for_fields (doc : Song) (query_terms : List String)
    (N : ℕ) (title_index artist_index : String → List ℕ)
    (field_weights : FieldWeights) : ℝ :=
  let title_tokens := tokenize (doc.title.getD "")
  let artist_tokens := tokenize (doc.artist_name.getD "")
  let tf_title := compute_tf_for_doc title_tokens
  let tf_artist := compute_tf_for_doc artist_tokens
  (query_terms.map fun term =>
    (field_weights.title * tf_title term + field_weights.artist * tf_artist term) *
      idf term title_index artist_index N).sum

/-- `rank_candidates_with_tfidf`: tokenize the query fragments, return
candidates unscored when no terms remain, otherwise score the candidates
found in the lookup, sort by (-score, id) and truncate to `top_k`. -/
noncomputable def rank_candidates_with_tfidf (candidates : List ℕ)
    (query_texts : List String) (track_lookup : List (ℕ × Song))
    (title_index artist_index : String → List ℕ) (field_weights : FieldWeights)
    (top_k : ℕ) : List (ℕ × ℝ) :=
  let query_terms := (query_texts.map tokenize).flatten
  if query_terms = [] then (candidates.take top_k).map fun tid => (tid, 0)
  else
    let N := track_lookup.length
    let scored := candidates.filterMap fun tid =>
      (lookupTrack track_lookup tid).map fun doc =>
        (tid, score_doc_tfidf_for_fields doc query_terms N title_index artist_index
          field_weights)
    (sortByRankKey Prod.snd Prod.fst scored).take top_k

/-- `rank_candidates_by_features`: build the target vector, score the
candidates found in the lookup, sort by (-score, id) and truncate. -/
noncomputable def rank_candidates_by_features (candidates : List ℕ)
    (track_lookup : List (ℕ × Song)) (user_profile : UserProfile) (mood : String)
    (activity : Option String) (top_k : ℕ) : List (ℕ × ℝ × Breakdown) :=
  let user_vector := build_user_audio_vector user_profile mood activity
  let user_genres := user_profile.top_genres
  let scored := candidates.filterMap fun tid =>
    (lookupTrack track_lookup tid).map fun song =>
      (tid, score_candidate_song song user_vector mood user_genres)
  (sortByRankKey (fun x => x.2.1) (fun x => x.1) scored).take top_k

/-- Python's `int()` truncation toward zero, on ℝ. -/
noncomputable def intTrunc (x : ℝ) : ℤ :=
  if 0 ≤ x then ⌊x⌋ else -⌊-x⌋

/-- One clause of `generate_explanation`; the formatted strings are
cosmetic (§4.5), so each clause is represented by a constructor carrying
the values it interpolates. -/
inductive Reason where
  | audioExcellent (sim : ℝ)
  | audioStrong (sim : ℝ)
  | highEnergy (energy : ℝ) (activity : String)
  | lowEnergy (energy : ℝ) (activity : String)
  | moodExact (mood : String)
  | moodAdjacent (songMood targetMood : String)
  | genreTop (genre : String)
  | popular (pop : ℤ)
  | generic

/-- `generate_explanation`: the rule-ordered clause list.  Missing
popularity defaults to 0 here (`song.get("popularity", 0)`), unlike the
score path's default of 50. -/
noncomputable def generate_explanation (song : Song) (breakdown : Breakdown)
    (user_genres : List String) (mood : String) (activity : Option String) :
    List Reason :=
  let sim := breakdown.audio_similarity
  let r1 : List Reason :=
    if 0.95 ≤ sim then [Reason.audioExcellent sim]
    else if 0.85 ≤ sim then [Reason.audioStrong sim]
    else []
  let song_energy := song.energy.getD 0.5
  let r2 : List Reason :=
    match activity with
    | some a =>
      if a = "workout" ∧ 0.7 ≤ song_energy then [Reason.highEnergy song_energy a]
      else if (a = "study" ∨ a = "relax") ∧ song_energy ≤ 0.35 then
        [Reason.lowEnergy song_energy a]
      else []
    | none => []
  let song_mood := song.mood_bucket.getD ""
  let r3 : List Reason :=
    if song_mood = mood then [Reason.moodExact song_mood]
    else if 0 < breakdown.mood_match then [Reason.moodAdjacent song_mood mood]
    else []
  let song_genre := song.genre.getD ""
  let r4 : List Reason :=
    if lowerStr song_genre ∈ user_genres.map lowerStr then [Reason.genreTop song_genre]
    else []
  let pop := intTrunc (song.popularity.getD 0)
  let r5 : List Reason := if 75 ≤ pop then [Reason.popular pop] else []
  let reasons := r1 ++ r2 ++ r3 ++ r4 ++ r5
  if reasons.isEmpty then [Reason.generic] else reasons

/-- One row of the USER_EVENTS frame, with the columns
`build_time_context_profiles` reads. -/
structure EventRow where
  user_id : String
  session_id : ℕ
  track_id : ℕ
  time_of_day : String
  event_type : String
  skipped : Bool

/-- One row of the LISTENING_SESSIONS frame, with the columns the merge
selects. -/
structure SessionRow where
  user_id : String
  session_id : ℕ
  self_reported_mood : Option String
  activity_type : Option String

/-- One row of the merged frame (events left-joined with sessions plus
the genre column mapped from the catalog). -/
structure MergedRow where
  user_id : String
  time_of_day : String
  event_type : String
  skipped : Bool
  self_reported_mood : Option String
  activity_type : Option String
  genre : Option String

/-- The left merge of events with sessions on (user_id, session_id) and
the catalog genre map (`catalog_df.set_index("track_id")["genre"]`,
modelled as a function).  Sessions are assumed unique per key, so the
join takes the first match; an unmatched event gets NaN (= `none`)
mood/activity. -/
def mergeEvents (events : List EventRow) (sessions : List SessionRow)
    (genre_map : ℕ → Option String) : List MergedRow :=
  events.map fun e =>
    let s := sessions.find? fun srow =>
      srow.user_id == e.user_id && srow.session_id == e.session_id
    ⟨e.user_id, e.time_of_day, e.event_type, e.skipped,
     s.bind fun srow => srow.self_reported_mood,
     s.bind fun srow => srow.activity_type,
     genre_map e.track_id⟩

/-- The `meaningful` frame: merged events that are plays and not
skipped. -/
def meaningfulEvents (events : List EventRow) (sessions : List SessionRow)
    (genre_map : ℕ → Option String) : List MergedRow :=
  (mergeEvents events sessions genre_map).filter fun r =>
    r.event_type == "play" && !r.skipped

/-- One user's rows of the meaningful frame (`groupby("user_id")`
group). -/
def userEvents (m : List MergedRow) (u : String) : List MergedRow :=
  m.filter fun r => r.user_id == u

/-- One timeslot's rows of a user group (`groupby("time_of_day")`
group). -/
def slotEvents (ue : List MergedRow) (tod : String) : List MergedRow :=
  ue.filter fun r => r.time_of_day == tod

/-- `Series.mode().iloc[0]`: a most frequent value, smallest first
(pandas `mode` returns the modes sorted); `none` on an empty series. -/
def modeMin (l : List String) : Option String :=
  l.foldl (fun best x =>
    match best with
    | none => some x
    | some b =>
      if l.count b < l.count x ∨ (l.count x = l.count b ∧ x < b) then some x
      else some b) none

/-- `value_counts().head(5).index.tolist()`: distinct values by
descending count (deterministic stable sort on ties), first five. -/
def topGenres (l : List String) : List String :=
  (l.dedup.insertionSort fun a b => l.count b ≤ l.count a).take 5

/-- Python's `round(x, 3)` on the stored confidence, idealized over ℚ. -/
def round3 (x : ℚ) : ℚ :=
  (round (x * 1000) : ℤ) / 1000

/-- One timeslot entry of a user's time-context profile. -/
structure SlotProfile where
  typical_mood : String
  typical_activity : Option String
  top_genres : List String
  event_count : ℕ
  confidence : ℚ
  deriving DecidableEq

/-- The aggregation of one `(user, time_of_day)` group of
`build_time_context_profiles`: modal mood (default "chill"), modal
activity (or `none`), top-5 genres, event count and the slot's share of
the user's events, rounded to 3 decimals. -/
def buildSlotProfile (ue : List MergedRow) (tod : String) : SlotProfile :=
  let tod_events := slotEvents ue tod
  let moods := tod_events.filterMap fun r => r.self_reported_mood
  let typical_mood := (modeMin moods).getD "chill"
  let activities := tod_events.filterMap fun r => r.activity_type
  let typical_activity := modeMin activities
  let genres := tod_events.filterMap fun r => r.genre
  ⟨typical_mood, typical_activity, topGenres genres, tod_events.length,
   round3 ((tod_events.length : ℚ) / (ue.length : ℚ))⟩

/-- One user's timeslot map: one entry per distinct `time_of_day` value
among the user's meaningful events (the iteration order of the groupby
is a deterministic modelling choice; it does not affect the entries). -/
def userCtx (m : List MergedRow) (u : String) : List (String × SlotProfile) :=
  let ue := userEvents m u
  ((ue.map fun r => r.time_of_day).dedup).map fun tod => (tod, buildSlotProfile ue tod)

/-- `build_time_context_profiles`: per-user profiles over the meaningful
events, keyed by the lowercased user id (the `profiles` dict modelled as
an association list in insertion order). -/
def build_time_context_profiles (events : List EventRow) (sessions : List SessionRow)
    (genre_map : ℕ → Option String) : List (String × List (String × SlotProfile)) :=
  let meaningful := meaningfulEvents events sessions genre_map
  ((meaningful.map fun r => r.user_id).dedup).map fun u =>
    (lowerStr u, userCtx meaningful u)

/-- A two-event demo history: user "U" plays track 1 in the morning and
track 2 at night, neither skipped. -/
def demoEvents : List EventRow :=
  [⟨"U", 1, 1, "morning", "play", false⟩, ⟨"U", 1, 2, "night", "play", false⟩]

/-- The profile entry the Time-Context Profiler produces for the demo
history. -/
def demoProfile : String × List (String × SlotProfile) :=
  ("u", userCtx (meaningfulEvents demoEvents [] fun _ => none) "U")

/-- `hour_to_timeslot`: fixed hour→slot boundaries. -/
def hour_to_timeslot (hour : ℕ) : String :=
  if 6 ≤ hour ∧ hour < 12 then "morning"
  else if 12 ≤ hour ∧ hour < 17 then "afternoon"
  else if 17 ≤ hour ∧ hour < 21 then "evening"
  else "night"

/-! ## Helper lemmas -/

theorem tokenize_empty : tokenize "" = [] := by decide

/-- The `adjacent` table of `_mood_match_score` is symmetric as a
relation: every edge appears in both directions. -/
theorem adjacentMoods_symm (s t : String) :
    t ∈ adjacentMoods s ↔ s ∈ adjacentMoods t := by
  unfold adjacentMoods
  split_ifs <;> simp_all

/-! ## Claim C1 -/

/-- C1 counterexample: candidate mood "hype" with target mood "happy"
scores 0.3 (the adjacency set of "hype" contains "happy"), refuting the
claim that this direction does not score 0.3. -/
theorem mood_match_hype_happy_scores :
    _mood_match_score "hype" "happy" = 0.3 := by
  simp [_mood_match_score, adjacentMoods]

/-- C1 amended: the mood match score is 1.0 on exact (non-empty) match,
0.3 when the target mood lies in the adjacency set looked up by the
candidate's mood, else 0.0 — but the relation is symmetric, not
directional: both ("happy","hype") and ("hype","happy") score 0.3, and
the score is symmetric for every pair of moods. -/
theorem mood_match_structure_and_symmetry :
    (∀ s t, _mood_match_score s t = _mood_match_score t s) ∧
    (∀ s, s ≠ "" → _mood_match_score s s = 1) ∧
    (∀ s t, s ≠ "" → t ≠ "" → s ≠ t →
      _mood_match_score s t = if t ∈ adjacentMoods s then 0.3 else 0) ∧
    _mood_match_score "happy" "hype" = 0.3 ∧
    _mood_match_score "hype" "happy" = 0.3 := by
  refine ⟨?_, ?_, ?_, by simp [_mood_match_score, adjacentMoods],
    by simp [_mood_match_score, adjacentMoods]⟩
  · intro s t
    by_cases hs : s = "" <;> by_cases ht : t = "" <;> by_cases hst : s = t <;>
      simp_all [_mood_match_score, adjacentMoods_symm, eq_comm]
  · intro s hs
    simp [_mood_match_score, hs]
  · intro s t hs ht hst
    rw [_mood_match_score, if_neg (by simp [hs, ht]), if_neg hst]

/-- Witness for the amended C1 at moods "sad" and "chill". -/
theorem mood_match_structure_and_symmetry_witness :
    ("sad" : String) ≠ "" ∧ ("chill" : String) ≠ "" ∧ ("sad" : String) ≠ "chill" ∧
    _mood_match_score "sad" "chill" =
      (if "chill" ∈ adjacentMoods "sad" then 0.3 else 0) :=
  ⟨by decide, by decide, by decide,
   mood_match_structure_and_symmetry.2.2.1 "sad" "chill" (by decide) (by decide)
     (by decide)⟩

/-! ## Claim C3 -/

theorem mem_foldl_inter (a : ℕ) (ss : List (Finset ℕ)) :
    ∀ s : Finset ℕ, a ∈ ss.foldl (· ∩ ·) s ↔ a ∈ s ∧ ∀ u ∈ ss, a ∈ u := by
  induction ss with
  | nil => simp
  | cons u us ih =>
    intro s
    simp only [List.foldl_cons, ih (s ∩ u), Finset.mem_inter, List.mem_cons]
    constructor
    · rintro ⟨⟨h1, h2⟩, h3⟩
      exact ⟨h1, fun v hv => by rcases hv with rfl | hv; exact h2; exact h3 v hv⟩
    · rintro ⟨h1, h2⟩
      exact ⟨⟨h1, h2 u (Or.inl rfl)⟩, fun v hv => h2 v (Or.inr hv)⟩

theorem mem_interList (a : ℕ) (L : List (Finset ℕ)) :
    a ∈ interList L ↔ L ≠ [] ∧ ∀ s ∈ L, a ∈ s := by
  cases L with
  | nil => simp [interList]
  | cons s ss =>
    simp only [interList, mem_foldl_inter, ne_eq, reduceCtorEq, not_false_iff,
      true_and, List.mem_cons]
    constructor
    · rintro ⟨h1, h2⟩ u hu
      rcases hu with rfl | hu
      exacts [h1, h2 u hu]
    · intro h
      exact ⟨h s (Or.inl rfl), fun u hu => h u (Or.inr hu)⟩

theorem mem_genre_foldl (a : ℕ) (idx : Indexes) (genres : List String) :
    ∀ acc : Finset ℕ,
      (a ∈ genres.foldl
          (fun acc g => if g = "" then acc else acc ∪ (idx.genre (lowerStr g)).toFinset)
          acc ↔
        a ∈ acc ∨ ∃ g ∈ genres, g ≠ "" ∧ a ∈ (idx.genre (lowerStr g)).toFinset) := by
  induction genres with
  | nil => simp
  | cons g gs ih =>
    intro acc
    rw [List.foldl_cons]
    by_cases hg : g = ""
    · rw [if_pos hg, ih]
      subst hg
      simp
    · rw [if_neg hg, ih]
      simp only [Finset.mem_union, List.mem_cons]
      constructor
      · rintro ((h | h) | h)
        · exact Or.inl h
        · exact Or.inr ⟨g, Or.inl rfl, hg, h⟩
        · obtain ⟨g', hm, hne, ha⟩ := h
          exact Or.inr ⟨g', Or.inr hm, hne, ha⟩
      · rintro (h | ⟨g', hm, hne, ha⟩)
        · exact Or.inl (Or.inl h)
        · rcases hm with rfl | hm
          · exact Or.inl (Or.inr ha)
          · exact Or.inr ⟨g', hm, hne, ha⟩

theorem mem_genreCategoryHits (a : ℕ) (idx : Indexes) (genres : List String) :
    a ∈ genreCategoryHits idx genres ↔
      ∃ g ∈ genres, g ≠ "" ∧ a ∈ (idx.genre (lowerStr g)).toFinset := by
  unfold genreCategoryHits
  induction genres with
  | nil => simp
  | cons g gs ih =>
    rw [List.filter_cons]
    by_cases hg : g = ""
    · rw [if_neg (by simp [hg]), ih]
      subst hg
      simp
    · rw [if_pos (by simp [hg]), List.map_cons, List.foldr_cons, Finset.mem_union, ih]
      constructor
      · rintro (h | ⟨g', hm, hne, ha⟩)
        · exact ⟨g, List.mem_cons_self g gs, hg, h⟩
        · exact ⟨g', List.mem_cons_of_mem g hm, hne, ha⟩
      · rintro ⟨g', hm, hne, ha⟩
        rcases List.mem_cons.mp hm with rfl | hm
        · exact Or.inl ha
        · exact Or.inr ⟨g', hm, hne, ha⟩

theorem textHitsTitle_eq (idx : Indexes) (tq : String) :
    textHitsTitle idx tq =
      if tokenize tq = [] then none else some (textCategoryHits idx.title tq) := by
  unfold textHitsTitle textCategoryHits
  by_cases h0 : tq = ""
  · subst h0
    simp [tokenize_empty]
  · by_cases hw : tokenize tq = [] <;> simp [h0, hw]

/-- C3: the Candidate Retriever combines filter categories with AND
semantics and genres with OR semantics — it agrees everywhere with the
specification's intersection-of-hit-sets reading — and on the scenario
index {genre: pop→[1,2], mood: sad→[2,3]} with genres=["pop"],
mood="sad" the candidate set is exactly {2}. -/
theorem retrieve_candidates_and_or_semantics :
    (∀ idx genres mood energy title_query artist_query,
      retrieve_candidates idx genres mood energy title_query artist_query =
        candidatesSpec idx genres mood energy title_query artist_query) ∧
    retrieve_candidates
      ⟨fun t => if t = "pop" then [1, 2] else [],
       fun t => if t = "sad" then [2, 3] else [],
       fun _ => [], fun _ => [], fun _ => []⟩
      ["pop"] "sad" "" "" "" = {2} := by
  constructor
  · intro idx genres mood energy tq aq
    ext a
    rcases eq_or_ne aq "" with haq0 | haq0
    · subst haq0
      by_cases htq : tokenize tq = [] <;> by_cases hg : genres = [] <;>
        by_cases hm : mood = "" <;> by_cases he : energy = "" <;>
          simp [retrieve_candidates, candidatesSpec, textHitsTitle_eq, htq, hg,
            hm, he, tokenize_empty, mem_interList, mem_genre_foldl,
            mem_genreCategoryHits, textCategoryHits]
    · by_cases haq : tokenize aq = [] <;> by_cases htq : tokenize tq = [] <;>
        by_cases hg : genres = [] <;> by_cases hm : mood = "" <;>
          by_cases he : energy = "" <;>
            simp [retrieve_candidates, candidatesSpec, textHitsTitle_eq, htq, haq,
              haq0, hg, hm, he, mem_interList, mem_genre_foldl,
              mem_genreCategoryHits, textCategoryHits] <;> tauto
  · decide

/-! ## Claim C2 -/

/-- C2 counterexample: the IDF is NOT strictly positive for every index
and document count — when a token's postings reference more documents
than the catalog holds (df > N, possible since dangling postings are
tolerated), `ln((N+1)/(df+1)) + 1` is negative: here N = 0, df = 3 give
`ln(1/4) + 1 < 0`. -/
theorem idf_negative_when_df_exceeds_N :
    idf "love" (fun t => if t = "love" then [1, 2, 3] else []) (fun _ => []) 0 < 0 := by
  have hdf : doc_freq_for_token "love" (fun t => if t = "love" then [1, 2, 3] else [])
      (fun _ => []) = 3 := by decide
  rw [idf, hdf, idfVal]
  have h4 : Real.exp 1 < 4 := lt_trans Real.exp_one_lt_d9 (by norm_num)
  have hlog : (1 : ℝ) < Real.log 4 := (Real.lt_log_iff_exp_lt (by norm_num)).2 h4
  have heq : Real.log (((0 : ℕ) + 1) / ((3 : ℕ) + 1) : ℝ) = -Real.log 4 := by
    rw [show (((0 : ℕ) + 1) / ((3 : ℕ) + 1) : ℝ) = (4 : ℝ)⁻¹ by norm_num, Real.log_inv]
  rw [heq]
  linarith

/-- C2 amended: whenever the document frequency does not exceed the
document count (guaranteed when postings only reference catalog
documents), the smoothed IDF is at least 1, hence strictly positive —
in particular for a token absent from both indexes — and the IDF is
strictly decreasing in the document frequency unconditionally. -/
theorem idf_positive_and_strictly_decreasing :
    (∀ token ti ai N, doc_freq_for_token token ti ai ≤ N → 0 < idf token ti ai N) ∧
    (∀ token ti ai N, ti token = [] → ai token = [] → 0 < idf token ti ai N) ∧
    (∀ N d1 d2 : ℕ, d1 < d2 → idfVal N d2 < idfVal N d1) := by
  have hpos : ∀ N df : ℕ, df ≤ N → 0 < idfVal N df := by
    intro N df h
    rw [idfVal]
    have h1 : (1 : ℝ) ≤ ((N : ℝ) + 1) / ((df : ℝ) + 1) := by
      rw [le_div_iff₀ (by positivity)]
      have : (df : ℝ) ≤ (N : ℝ) := Nat.cast_le.2 h
      linarith
    have := Real.log_nonneg h1
    linarith
  refine ⟨fun token ti ai N h => hpos N _ h, ?_, ?_⟩
  · intro token ti ai N hti hai
    apply hpos
    simp [doc_freq_for_token, hti, hai]
  · intro N d1 d2 h
    rw [idfVal, idfVal]
    have hlt : ((N : ℝ) + 1) / ((d2 : ℝ) + 1) < ((N : ℝ) + 1) / ((d1 : ℝ) + 1) := by
      apply div_lt_div_of_pos_left (by positivity) (by positivity)
      have : (d1 : ℝ) < (d2 : ℝ) := Nat.cast_lt.2 h
      linarith
    have := Real.log_lt_log (by positivity) hlt
    linarith

/-- Witness for the amended C2: an in-range index (df = 1 ≤ N = 3) has
positive IDF, the absent token has positive IDF, and `idfVal` strictly
decreases from df = 0 to df = 1. -/
theorem idf_positive_and_strictly_decreasing_witness :
    (doc_freq_for_token "love" (fun t => if t = "love" then [7] else []) (fun _ => []) ≤ 3 ∧
      0 < idf "love" (fun t => if t = "love" then [7] else []) (fun _ => []) 3) ∧
    ((fun _ : String => ([] : List ℕ)) "ghost" = [] ∧
      0 < idf "ghost" (fun _ => []) (fun _ => []) 3) ∧
    (0 < 1 ∧ idfVal 3 1 < idfVal 3 0) :=
  ⟨⟨by decide,
    idf_positive_and_strictly_decreasing.1 "love"
      (fun t => if t = "love" then [7] else []) (fun _ => []) 3 (by decide)⟩,
   ⟨rfl,
    idf_positive_and_strictly_decreasing.2.1 "ghost" (fun _ => []) (fun _ => []) 3 rfl rfl⟩,
   ⟨by decide, idf_positive_and_strictly_decreasing.2.2 3 0 1 (by decide)⟩⟩

/-! ## Claim C7 -/

/-- C7: cosine similarity is total on the ranking path — it is 0 when
either vector has zero magnitude, and the division is only reached with
a provably non-zero magnitude product. -/
theorem cosine_similarity_total (a b : List ℝ) (_hlen : a.length = b.length) :
    (magnitudeOf a = 0 ∨ magnitudeOf b = 0 → cosine_similarity a b = 0) ∧
    (magnitudeOf a ≠ 0 → magnitudeOf b ≠ 0 →
      magnitudeOf a * magnitudeOf b ≠ 0 ∧
      cosine_similarity a b = dotList a b / (magnitudeOf a * magnitudeOf b)) := by
  constructor
  · intro h
    rw [cosine_similarity, if_pos h]
  · intro ha hb
    refine ⟨mul_ne_zero ha hb, ?_⟩
    rw [cosine_similarity, if_neg (by tauto)]

/-- Witness for C7 at the vectors [0,0] and [3,4]. -/
theorem cosine_similarity_total_witness :
    ([0, 0] : List ℝ).length = ([3, 4] : List ℝ).length ∧
    ((magnitudeOf [0, 0] = 0 ∨ magnitudeOf [3, 4] = 0 →
        cosine_similarity [0, 0] [3, 4] = 0) ∧
     (magnitudeOf [0, 0] ≠ 0 → magnitudeOf [3, 4] ≠ 0 →
        magnitudeOf [0, 0] * magnitudeOf [3, 4] ≠ 0 ∧
        cosine_similarity [0, 0] [3, 4] =
          dotList [0, 0] [3, 4] / (magnitudeOf [0, 0] * magnitudeOf [3, 4]))) :=
  ⟨by simp, cosine_similarity_total [0, 0] [3, 4] (by simp)⟩

/-! ## Claim C8 -/

/-- C8: with zero active filter categories the retriever returns the
empty set — no implicit match-everything. -/
theorem retrieve_candidates_no_filters (idx : Indexes) :
    retrieve_candidates idx [] "" "" "" "" = ∅ := by
  simp [retrieve_candidates, textHitsTitle]

/-! ## Claim C9 -/

/-- C9: for mood "hype" and activity "workout" the target vector is
energy 0.85 (activity override), valence 0.75, danceability 0.85,
acousticness 0.15, and tempo (140-40)/180; tempo normalization clamps
into [0,1]. -/
theorem hype_workout_target_vector :
    (∀ up : UserProfile, build_user_audio_vector up "hype" (some "workout") =
      [0.85, 0.75, 0.85, 0.15, (140 - 40) / 180]) ∧
    (∀ t : ℝ, 0 ≤ _normalize_tempo t ∧ _normalize_tempo t ≤ 1) ∧
    _normalize_tempo 140 = (140 - 40) / 180 := by
  have hnorm : _normalize_tempo 140 = (140 - 40) / 180 := by
    rw [_normalize_tempo, min_eq_right (by norm_num), max_eq_right (by norm_num)]
    norm_num
  refine ⟨?_, ?_, hnorm⟩
  · intro up
    simp [build_user_audio_vector, activityEnergy, moodProfiles,
      _build_feature_vector, hnorm]
  · intro t
    exact ⟨le_max_left 0 _, max_le (by norm_num) (min_le_left 1 _)⟩

/-! ## Claim C4 -/

theorem rankKey_le_total {α : Type} (score : α → ℝ) (tid : α → ℕ) (a b : α) :
    (decide (rankKeyLE score tid a b) || decide (rankKeyLE score tid b a)) = true := by
  simp only [Bool.or_eq_true, decide_eq_true_eq]
  rcases lt_trichotomy (score a) (score b) with h | h | h
  · exact Or.inr (Or.inl h)
  · rcases le_total (tid a) (tid b) with ht | ht
    · exact Or.inl (Or.inr ⟨h, ht⟩)
    · exact Or.inr (Or.inr ⟨h.symm, ht⟩)
  · exact Or.inl (Or.inl h)

theorem rankKey_le_trans {α : Type} (score : α → ℝ) (tid : α → ℕ) (a b c : α)
    (hab : decide (rankKeyLE score tid a b) = true)
    (hbc : decide (rankKeyLE score tid b c) = true) :
    decide (rankKeyLE score tid a c) = true := by
  simp only [decide_eq_true_eq] at hab hbc ⊢
  rcases hab with h1 | ⟨h1, h1'⟩ <;> rcases hbc with h2 | ⟨h2, h2'⟩
  · exact Or.inl (lt_trans h2 h1)
  · exact Or.inl (h2 ▸ h1)
  · exact Or.inl (by rw [h1]; exact h2)
  · exact Or.inr ⟨h1.trans h2, le_trans h1' h2'⟩

theorem chain'_strict_of_pairwise {α : Type} (score : α → ℝ) (tid : α → ℕ)
    (l : List α) (hp : l.Pairwise fun x y => rankKeyLE score tid x y)
    (hn : (l.map tid).Nodup) : strictlyRanked score tid l := by
  induction l with
  | nil => exact List.chain'_nil
  | cons a t ih =>
    rw [List.map_cons, List.nodup_cons] at hn
    rw [List.pairwise_cons] at hp
    cases t with
    | nil => exact List.chain'_singleton a
    | cons b t2 =>
      refine List.chain'_cons.mpr ⟨?_, ?_⟩
      · have hle := hp.1 b (List.mem_cons_self b t2)
        have hne : tid a ≠ tid b := fun hcontra => hn.1 (by simp [hcontra])
        rcases hle with h | ⟨h1, h2⟩
        · exact Or.inl h
        · exact Or.inr ⟨h1, lt_of_le_of_ne h2 hne⟩
      · exact ih hp.2 hn.2

/-- Sorting then truncating yields a strictly ranked list of length at
most `k`, provided the track ids are distinct. -/
theorem sortByRankKey_take_ranked {β : Type} (score : β → ℝ) (tid : β → ℕ)
    (l : List β) (h : (l.map tid).Nodup) (k : ℕ) :
    strictlyRanked score tid ((sortByRankKey score tid l).take k) ∧
    ((sortByRankKey score tid l).take k).length ≤ k := by
  have hperm := List.mergeSort_perm l fun x y => decide (rankKeyLE score tid x y)
  have hsorted := List.sorted_mergeSort (rankKey_le_trans score tid)
    (rankKey_le_total score tid) l
  have hpw : (sortByRankKey score tid l).Pairwise
      fun x y => rankKeyLE score tid x y := by
    refine hsorted.imp ?_
    intro x y hxy
    exact of_decide_eq_true hxy
  have hnodup : ((sortByRankKey score tid l).map tid).Nodup :=
    ((hperm.map tid).nodup_iff).2 h
  refine ⟨(chain'_strict_of_pairwise score tid _ hpw hnodup).take k, ?_⟩
  rw [List.length_take]
  exact min_le_left k _

theorem nodup_map_fst_filterMap {β : Type} (tid : β → ℕ) (f : ℕ → Option β)
    (hf : ∀ n b, f n = some b → tid b = n) (candidates : List ℕ)
    (h : candidates.Nodup) : ((candidates.filterMap f).map tid).Nodup := by
  induction candidates with
  | nil => simp
  | cons c cs ih =>
    rw [List.nodup_cons] at h
    rw [List.filterMap_cons]
    cases hc : f c with
    | none => exact ih h.2
    | some b =>
      rw [List.map_cons, List.nodup_cons]
      refine ⟨?_, ih h.2⟩
      intro hmem
      rw [List.mem_map] at hmem
      obtain ⟨b', hb', heq⟩ := hmem
      rw [List.mem_filterMap] at hb'
      obtain ⟨n, hn, hfn⟩ := hb'
      have hone : tid b' = n := hf n b' hfn
      have hcb : tid b = c := hf c b hc
      have hnc : n = c := by rw [← hone, heq, hcb]
      exact h.1 (hnc ▸ hn)

/-- C4 counterexample: with no query terms the Lexical Ranker returns
candidates in input order with score 0 — for candidates [3, 1] the
adjacent results (3, 0), (1, 0) have equal scores and a strictly
DEcreasing track id, refuting the claim for "any candidate list". -/
theorem lexical_ranker_unsorted_without_query :
    rank_candidates_with_tfidf [3, 1] [] [] (fun _ => []) (fun _ => [])
        defaultFieldWeights 20 = [(3, 0), (1, 0)] ∧
    ¬ strictlyRanked Prod.snd Prod.fst
        (rank_candidates_with_tfidf [3, 1] [] [] (fun _ => []) (fun _ => [])
          defaultFieldWeights 20) := by
  have hout : rank_candidates_with_tfidf [3, 1] [] [] (fun _ => []) (fun _ => [])
      defaultFieldWeights 20 = [(3, 0), (1, 0)] := by
    rw [rank_candidates_with_tfidf]
    norm_num
  refine ⟨hout, ?_⟩
  rw [hout]
  simp [List.chain'_cons]

/-- C4 amended: when the candidate list has no duplicate track ids —
and, for the Lexical Ranker, when the combined query text has at least
one token (with no tokens it returns candidates unscored in input
order) — any two adjacent results of either ranker have strictly
decreasing scores, or equal scores and strictly increasing track ids;
both outputs are truncated to at most `top_k` entries. -/
theorem rankers_sorted_and_truncated :
    (∀ (candidates : List ℕ) (query_texts : List String) track_lookup ti ai fw
        top_k, candidates.Nodup → (query_texts.map tokenize).flatten ≠ [] →
      strictlyRanked Prod.snd Prod.fst
          (rank_candidates_with_tfidf candidates query_texts track_lookup ti ai fw
            top_k) ∧
        (rank_candidates_with_tfidf candidates query_texts track_lookup ti ai fw
          top_k).length ≤ top_k) ∧
    (∀ (candidates : List ℕ) track_lookup up mood act top_k, candidates.Nodup →
      strictlyRanked (fun x => x.2.1) (fun x => x.1)
          (rank_candidates_by_features candidates track_lookup up mood act top_k) ∧
        (rank_candidates_by_features candidates track_lookup up mood act
          top_k).length ≤ top_k) := by
  constructor
  · intro candidates query_texts track_lookup ti ai fw top_k hnd hq
    rw [rank_candidates_with_tfidf, if_neg hq]
    apply sortByRankKey_take_ranked
    apply nodup_map_fst_filterMap _ _ _ _ hnd
    intro n b hb
    rw [Option.map_eq_some'] at hb
    obtain ⟨doc, _, rfl⟩ := hb
    rfl
  · intro candidates track_lookup up mood act top_k hnd
    rw [rank_candidates_by_features]
    apply sortByRankKey_take_ranked
    apply nodup_map_fst_filterMap _ _ _ _ hnd
    intro n b hb
    rw [Option.map_eq_some'] at hb
    obtain ⟨song, _, rfl⟩ := hb
    rfl

/-- Witness for the amended C4: one-candidate instances of both rankers. -/
theorem rankers_sorted_and_truncated_witness :
    (([5] : List ℕ).Nodup ∧ ((["love"].map tokenize).flatten ≠ []) ∧
      (strictlyRanked Prod.snd Prod.fst
          (rank_candidates_with_tfidf [5] ["love"] [] (fun _ => []) (fun _ => [])
            defaultFieldWeights 10) ∧
        (rank_candidates_with_tfidf [5] ["love"] [] (fun _ => []) (fun _ => [])
          defaultFieldWeights 10).length ≤ 10)) ∧
    (([5] : List ℕ).Nodup ∧
      (strictlyRanked (fun x => x.2.1) (fun x => x.1)
          (rank_candidates_by_features [5] [] ⟨none, []⟩ "happy" none 10) ∧
        (rank_candidates_by_features [5] [] ⟨none, []⟩ "happy" none 10).length ≤
          10)) :=
  ⟨⟨by decide, by decide,
    rankers_sorted_and_truncated.1 [5] ["love"] [] (fun _ => []) (fun _ => [])
      defaultFieldWeights 10 (by decide) (by decide)⟩,
   ⟨by decide,
    rankers_sorted_and_truncated.2 [5] [] ⟨none, []⟩ "happy" none 10 (by decide)⟩⟩

/-! ## Claim C5 -/

theorem mood_match_score_range (s t : String) :
    (0 : ℚ) ≤ _mood_match_score s t ∧ _mood_match_score s t ≤ 1 := by
  rw [_mood_match_score]
  split_ifs <;> norm_num

theorem genre_match_score_range (g : String) (ug : List String) :
    (0 : ℚ) ≤ _genre_match_score g ug ∧ _genre_match_score g ug ≤ 1 := by
  rw [_genre_match_score]
  split_ifs <;> norm_num

/-- C5: for a candidate whose components are within their documented
ranges (similarity in [0,1], popularity in [0,100]; the mood and genre
scores are always in range), the final score
0.45·sim + 0.25·mood + 0.15·genre + 0.15·(popularity/100) lies in [0,1],
and the breakdown records the four components and the final score
rounded to 4 decimals. -/
theorem score_candidate_song_bounds (song : Song) (uv : List ℝ) (tm : String)
    (ug : List String)
    (hsim0 : 0 ≤ cosine_similarity uv (_build_feature_vector song.feats true))
    (hsim1 : cosine_similarity uv (_build_feature_vector song.feats true) ≤ 1)
    (hpop0 : 0 ≤ song.popularity.getD 50) (hpop1 : song.popularity.getD 50 ≤ 100) :
    0 ≤ (score_candidate_song song uv tm ug).1 ∧
    (score_candidate_song song uv tm ug).1 ≤ 1 ∧
    (score_candidate_song song uv tm ug).2 =
      ⟨round4 (cosine_similarity uv (_build_feature_vector song.feats true)),
       round4 ((_mood_match_score (song.mood_bucket.getD "") tm : ℚ) : ℝ),
       round4 ((_genre_match_score (song.genre.getD "") ug : ℚ) : ℝ),
       round4 (song.popularity.getD 50 / 100),
       round4 (score_candidate_song song uv tm ug).1⟩ := by
  obtain ⟨hm0, hm1⟩ := mood_match_score_range (song.mood_bucket.getD "") tm
  obtain ⟨hg0, hg1⟩ := genre_match_score_range (song.genre.getD "") ug
  have hm0' : (0 : ℝ) ≤ ((_mood_match_score (song.mood_bucket.getD "") tm : ℚ) : ℝ) := by
    exact_mod_cast hm0
  have hm1' : ((_mood_match_score (song.mood_bucket.getD "") tm : ℚ) : ℝ) ≤ 1 := by
    exact_mod_cast hm1
  have hg0' : (0 : ℝ) ≤ ((_genre_match_score (song.genre.getD "") ug : ℚ) : ℝ) := by
    exact_mod_cast hg0
  have hg1' : ((_genre_match_score (song.genre.getD "") ug : ℚ) : ℝ) ≤ 1 := by
    exact_mod_cast hg1
  refine ⟨?_, ?_, rfl⟩
  all_goals simp only [score_candidate_song]
  all_goals linarith

/-- Witness for C5 at a song whose feature vector is the zero vector, so
the computed similarity is 0. -/
theorem score_candidate_song_bounds_witness :
    (0 ≤ cosine_similarity [1, 0, 0, 0, 0]
        (_build_feature_vector
          (Song.feats ⟨none, none, some 0, some 0, some 0, some 0, some 0, none, none,
            none⟩) true) ∧
      cosine_similarity [1, 0, 0, 0, 0]
        (_build_feature_vector
          (Song.feats ⟨none, none, some 0, some 0, some 0, some 0, some 0, none, none,
            none⟩) true) ≤ 1 ∧
      0 ≤ (Option.getD (none : Option ℝ) 50) ∧ (Option.getD (none : Option ℝ) 50) ≤ 100) ∧
    (0 ≤ (score_candidate_song
        ⟨none, none, some 0, some 0, some 0, some 0, some 0, none, none, none⟩
        [1, 0, 0, 0, 0] "hype" []).1 ∧
      (score_candidate_song
        ⟨none, none, some 0, some 0, some 0, some 0, some 0, none, none, none⟩
        [1, 0, 0, 0, 0] "hype" []).1 ≤ 1) := by
  have hv : _build_feature_vector
      (Song.feats ⟨none, none, some 0, some 0, some 0, some 0, some 0, none, none,
        none⟩) true = [0, 0, 0, 0, 0] := by
    have ht : _normalize_tempo 0 = 0 := by
      rw [_normalize_tempo, min_eq_right (by norm_num), max_eq_left (by norm_num)]
    simp [Song.feats, _build_feature_vector, ht]
  have hmag : magnitudeOf [0, 0, 0, 0, 0] = 0 := by
    simp [magnitudeOf]
  have hsim : cosine_similarity [1, 0, 0, 0, 0]
      (_build_feature_vector
        (Song.feats ⟨none, none, some 0, some 0, some 0, some 0, some 0, none, none,
          none⟩) true) = 0 := by
    rw [hv, cosine_similarity, if_pos (Or.inr hmag)]
  have h1 : 0 ≤ cosine_similarity [1, 0, 0, 0, 0]
      (_build_feature_vector
        (Song.feats ⟨none, none, some 0, some 0, some 0, some 0, some 0, none, none,
          none⟩) true) := by rw [hsim]
  have h2 : cosine_similarity [1, 0, 0, 0, 0]
      (_build_feature_vector
        (Song.feats ⟨none, none, some 0, some 0, some 0, some 0, some 0, none, none,
          none⟩) true) ≤ 1 := by rw [hsim]; norm_num
  have h3 : (0 : ℝ) ≤ (Option.getD (none : Option ℝ) 50) := by norm_num
  have h4 : (Option.getD (none : Option ℝ) 50) ≤ 100 := by norm_num
  have main := score_candidate_song_bounds
    ⟨none, none, some 0, some 0, some 0, some 0, some 0, none, none, none⟩
    [1, 0, 0, 0, 0] "hype" [] h1 h2 h3 h4
  exact ⟨⟨h1, h2, h3, h4⟩, main.1, main.2.1⟩

/-! ## Claim C10 -/

set_option maxHeartbeats 1600000 in
/-- C10: a song lacking the popularity attribute receives popularity
component 0.5 in the reranker's score breakdown (default 50, divided by
100), while the explanation generator defaults the same missing
popularity to 0, so the "Popular track" clause can never fire for it. -/
theorem missing_popularity_divergence (song : Song) (uv : List ℝ) (tm : String)
    (ug : List String) (hpop : song.popularity = none) :
    (score_candidate_song song uv tm ug).2.popularity = round4 (1 / 2) ∧
    round4 (1 / 2) = 1 / 2 ∧
    (∀ bd ug2 m act p, Reason.popular p ∉ generate_explanation song bd ug2 m act) := by
  have h5000 : round ((5000 : ℝ)) = 5000 := by
    rw [round_eq]
    have : ⌊(5000 : ℝ) + 1 / 2⌋ = (5000 : ℤ) := by
      rw [Int.floor_eq_iff]
      norm_num
    rw [this]
  have h12 : round4 (1 / 2 : ℝ) = 1 / 2 := by
    rw [round4, show ((1 : ℝ) / 2 * 10000) = (5000 : ℝ) by norm_num, h5000]
    norm_num
  have hp0 : intTrunc ((0 : ℝ)) = 0 := by
    rw [intTrunc, if_pos le_rfl]
    exact Int.floor_zero
  refine ⟨?_, h12, ?_⟩
  · simp only [score_candidate_song, hpop, Option.getD_none]
    norm_num
  · intro bd ug2 m act p
    rcases act with _ | a <;>
      simp only [generate_explanation, hpop, Option.getD_none, hp0] <;>
      split_ifs <;> simp_all

/-- Witness for C10 at the all-absent song record. -/
theorem missing_popularity_divergence_witness :
    (⟨none, none, none, none, none, none, none, none, none, none⟩ : Song).popularity =
      none ∧
    ((score_candidate_song
        ⟨none, none, none, none, none, none, none, none, none, none⟩ [] "happy"
        []).2.popularity = round4 (1 / 2) ∧
      round4 (1 / 2) = 1 / 2 ∧
      (∀ bd ug2 m act p, Reason.popular p ∉ generate_explanation
        ⟨none, none, none, none, none, none, none, none, none, none⟩ bd ug2 m act)) :=
  ⟨rfl, missing_popularity_divergence
    ⟨none, none, none, none, none, none, none, none, none, none⟩ [] "happy" [] rfl⟩

/-! ## Claim C6 -/

theorem list_sum_div {α : Type} (l : List α) (f : α → ℚ) (T : ℚ) :
    (l.map fun x => f x / T).sum = (l.map f).sum / T := by
  induction l with
  | nil => simp
  | cons a t ih => simp [ih, add_div]

theorem list_sum_natCast {α : Type} (l : List α) (f : α → ℕ) :
    (l.map fun x => ((f x : ℕ) : ℚ)).sum = (((l.map f).sum : ℕ) : ℚ) := by
  induction l with
  | nil => simp
  | cons a t ih => simp [ih]

theorem sum_dedup_count_nat (L : List String) :
    (L.dedup.map fun x => L.count x).sum = L.length := by
  have hfs : L.dedup.toFinset = L.toFinset := by
    ext a
    simp
  rw [← List.sum_toFinset _ L.nodup_dedup, hfs]
  exact List.sum_toFinset_count_eq_length L

theorem slot_count (ue : List MergedRow) (tod : String) :
    (slotEvents ue tod).length = (ue.map fun r => r.time_of_day).count tod := by
  rw [slotEvents, ← List.countP_eq_length_filter, List.count, List.countP_map]
  rfl

theorem sum_slot_lengths (ue : List MergedRow) :
    ((ue.map fun r => r.time_of_day).dedup.map fun tod =>
      (slotEvents ue tod).length).sum = ue.length := by
  have h1 : ((ue.map fun r => r.time_of_day).dedup.map fun tod =>
      (slotEvents ue tod).length) =
      ((ue.map fun r => r.time_of_day).dedup.map fun tod =>
        (ue.map fun r => r.time_of_day).count tod) :=
    List.map_congr_left fun tod _ => slot_count ue tod
  rw [h1, sum_dedup_count_nat, List.length_map]

/-- Total event count over a user's slot entries is the user's total
meaningful event count. -/
theorem slots_count_sum (ue : List MergedRow) :
    (((ue.map fun r => r.time_of_day).dedup.map
        fun tod => (tod, buildSlotProfile ue tod)).map
      fun y => ((y.2.event_count : ℚ))).sum = ((ue.length : ℕ) : ℚ) := by
  rw [List.map_map]
  have h1 : (((ue.map fun r => r.time_of_day).dedup).map
      ((fun y : String × SlotProfile => (y.2.event_count : ℚ)) ∘
        fun tod => (tod, buildSlotProfile ue tod))) =
      ((ue.map fun r => r.time_of_day).dedup).map
        fun tod => (((slotEvents ue tod).length : ℕ) : ℚ) :=
    List.map_congr_left fun tod _ => rfl
  rw [h1, list_sum_natCast, sum_slot_lengths]

/-- The unrounded shares event_count/total over a user's slot entries
sum to exactly 1. -/
theorem slots_share_sum (ue : List MergedRow) (hlen : ue.length ≠ 0) :
    (((ue.map fun r => r.time_of_day).dedup.map
        fun tod => (tod, buildSlotProfile ue tod)).map
      fun x => ((x.2.event_count : ℚ)) / ((ue.length : ℕ) : ℚ)).sum = 1 := by
  rw [List.map_map]
  have h1 : (((ue.map fun r => r.time_of_day).dedup).map
      ((fun x : String × SlotProfile =>
          (x.2.event_count : ℚ) / ((ue.length : ℕ) : ℚ)) ∘
        fun tod => (tod, buildSlotProfile ue tod))) =
      ((ue.map fun r => r.time_of_day).dedup).map
        fun tod => (((slotEvents ue tod).length : ℕ) : ℚ) /
          ((ue.length : ℕ) : ℚ) :=
    List.map_congr_left fun tod _ => rfl
  rw [h1, list_sum_div, list_sum_natCast, sum_slot_lengths,
    div_self (Nat.cast_ne_zero.2 hlen)]

theorem abs_round3_sub_le (q : ℚ) : |round3 q - q| ≤ 1 / 2000 := by
  rw [round3]
  have h := abs_sub_round (q * 1000)
  rw [abs_sub_comm] at h
  have heq : (round (q * 1000) : ℚ) / 1000 - q =
      ((round (q * 1000) : ℚ) - q * 1000) / 1000 := by ring
  rw [heq, abs_div, abs_of_pos (by norm_num : (0 : ℚ) < 1000)]
  rw [div_le_div_iff₀ (by norm_num) (by norm_num)]
  linarith

theorem list_sum_abs_bound {α : Type} (l : List α) (g h : α → ℚ) (c : ℚ)
    (hb : ∀ x ∈ l, |g x - h x| ≤ c) :
    |(l.map g).sum - (l.map h).sum| ≤ l.length * c := by
  induction l with
  | nil => simp
  | cons a t ih =>
    simp only [List.map_cons, List.sum_cons, List.length_cons]
    have h1 := hb a (List.mem_cons_self a t)
    have h2 := ih fun x hx => hb x (List.mem_cons_of_mem a hx)
    have heq : g a + (t.map g).sum - (h a + (t.map h).sum) =
        (g a - h a) + ((t.map g).sum - (t.map h).sum) := by ring
    rw [heq]
    calc |(g a - h a) + ((t.map g).sum - (t.map h).sum)|
        ≤ |g a - h a| + |(t.map g).sum - (t.map h).sum| := abs_add _ _
      _ ≤ c + (t.length : ℚ) * c := add_le_add h1 h2
      _ = (((t.length + 1 : ℕ) : ℚ)) * c := by push_cast; ring

/-- C6: for every user profile produced by the Time-Context Profiler,
the per-slot shares event_count/total sum to exactly 1, each stored
confidence is that share rounded to 3 decimals, and the stored
confidences therefore sum to 1 within (number of slots)/2000. -/
theorem time_context_confidence_sums (events : List EventRow)
    (sessions : List SessionRow) (genre_map : ℕ → Option String)
    (p : String × List (String × SlotProfile))
    (hp : p ∈ build_time_context_profiles events sessions genre_map) :
    ((p.2.map fun x => ((x.2.event_count : ℚ)) /
        ((p.2.map fun y => (y.2.event_count : ℚ)).sum)).sum = 1) ∧
    (∀ x ∈ p.2, x.2.confidence =
      round3 ((x.2.event_count : ℚ) /
        ((p.2.map fun y => (y.2.event_count : ℚ)).sum))) ∧
    |((p.2.map fun x => x.2.confidence).sum) - 1| ≤ (p.2.length : ℚ) / 2000 := by
  rw [build_time_context_profiles, List.mem_map] at hp
  obtain ⟨u, hu, rfl⟩ := hp
  have hex : ∃ r, r ∈ userEvents (meaningfulEvents events sessions genre_map) u := by
    rw [List.mem_dedup, List.mem_map] at hu
    obtain ⟨r, hr, hru⟩ := hu
    exact ⟨r, List.mem_filter.2 ⟨hr, by simp [hru]⟩⟩
  obtain ⟨r0, hr0⟩ := hex
  have hlen : (userEvents (meaningfulEvents events sessions genre_map) u).length ≠ 0 := by
    intro h0
    rw [List.length_eq_zero] at h0
    rw [h0] at hr0
    exact List.not_mem_nil r0 hr0
  simp only [userCtx]
  have hshare := slots_share_sum
    (userEvents (meaningfulEvents events sessions genre_map) u) hlen
  refine ⟨?_, ?_, ?_⟩
  · rw [slots_count_sum]
    exact hshare
  · rw [slots_count_sum]
    intro x hx
    rw [List.mem_map] at hx
    obtain ⟨tod, _, rfl⟩ := hx
    rfl
  · have hb : ∀ x ∈ (((userEvents (meaningfulEvents events sessions genre_map)
          u).map fun r => r.time_of_day).dedup.map
        fun tod => (tod, buildSlotProfile
          (userEvents (meaningfulEvents events sessions genre_map) u) tod)),
      |x.2.confidence - ((x.2.event_count : ℚ)) /
          (((userEvents (meaningfulEvents events sessions genre_map) u).length :
            ℕ) : ℚ)| ≤ 1 / 2000 := by
      intro x hx
      rw [List.mem_map] at hx
      obtain ⟨tod, _, rfl⟩ := hx
      exact abs_round3_sub_le _
    have hbound := list_sum_abs_bound _ _ _ _ hb
    rw [← hshare]
    refine le_trans hbound (le_of_eq ?_)
    ring
/-- Witness for C6 at the two-event demo history. -/
theorem time_context_confidence_sums_witness :
    demoProfile ∈ build_time_context_profiles demoEvents [] (fun _ => none) ∧
    ((demoProfile.2.map fun x => ((x.2.event_count : ℚ)) /
        ((demoProfile.2.map fun y => (y.2.event_count : ℚ)).sum)).sum = 1) := by
  have hlist : build_time_context_profiles demoEvents [] (fun _ => none) =
      [demoProfile] := rfl
  have hmem : demoProfile ∈
      build_time_context_profiles demoEvents [] (fun _ => none) := by
    rw [hlist]
    exact List.mem_singleton_self demoProfile
  exact ⟨hmem, (time_context_confidence_sums _ _ _ _ hmem).1⟩

end JukeJam
